import Mathlib

/-!
Verification of the clawlet multi-channel chat-agent runtime.

Shallow embedding of the Go sources:
* `llm/client.go` — cooldown pacing, retry loop, wait computation;
* `llm/models.go` — `ListModels` / `ProbeModel` locking structure;
* the Discord / WhatsApp / Telegram channel adapters — send preludes,
  send retry policies, webhook verification, HMAC signature checks;
* `channels/manager.go` — outbound dispatch, `StopAll`;
* `tools/skill_registry.go` — secure zip extraction and install cleanup.

Machine integers are modelled as `Int` with explicit two's-complement
wrapping (`wrap64`) where Go's `int64` arithmetic can overflow.
Go strings are modelled as `List Char` (ASCII fragment), byte slices as
`List Nat` with every byte `< 256`.
-/

namespace Clawlet

/-! ## String helpers (models of Go `strings` functions, ASCII fragment) -/

/-- ASCII lower-casing of one character (model of Unicode `ToLower` on the
ASCII fragment that the claims exercise). -/
def toLowerChar (c : Char) : Char :=
  if 'A' ≤ c ∧ c ≤ 'Z' then Char.ofNat (c.toNat + 32) else c

/-- Model of Go `strings.ToLower` on ASCII strings. -/
def strToLower (s : List Char) : List Char := s.map toLowerChar

/-- Go `unicode.IsSpace` restricted to ASCII: the characters trimmed by
`strings.TrimSpace`. -/
def isSpaceChar (c : Char) : Bool :=
  [' ', '\t', '\n', '\x0b', '\x0c', '\r'].contains c

/-- Model of Go `strings.TrimSpace` (ASCII fragment). -/
def trimSpace (s : List Char) : List Char :=
  ((s.dropWhile isSpaceChar).reverse.dropWhile isSpaceChar).reverse

/-- Model of the Go standard-library test that a string starts with a given
literal: does `h` start with `n`? -/
def strStartsWith : List Char → List Char → Bool
  | _, [] => true
  | [], _ :: _ => false
  | a :: as, b :: bs => a == b && strStartsWith as bs

/-- Model of Go `strings.Contains`: does `h` contain `n` as a substring? -/
def strContainsSub : List Char → List Char → Bool
  | [], n => n == []
  | h@(_ :: t), n => strStartsWith h n || strContainsSub t n

/-! ## Machine-integer helpers -/

/-- Reinterpret an integer as a two's-complement 64-bit value, as Go `int64`
arithmetic does on overflow. -/
def wrap64 (n : Int) : Int := (n + 2 ^ 63) % 2 ^ 64 - 2 ^ 63

/-- `time.Second` in nanoseconds (Go `time.Duration` units). -/
def second : Int := 1000000000

/-- `time.Millisecond` in nanoseconds. -/
def millisecond : Int := 1000000

theorem wrap64_eq_self {n : Int} (h1 : -(2 ^ 63) ≤ n) (h2 : n < 2 ^ 63) :
    wrap64 n = n := by
  unfold wrap64
  omega

/-! ## LLM client: cooldown pacing (`llm/client.go` lines 59–81)

`Client.Chat` reads the clock, computes `elapsed = now - lastReqAt`, sleeps
`cooldown - elapsed` when `elapsed < cooldown`, and then sets `lastReqAt`
to the current clock value — the moment the request starts.  Time is
modelled as `Int` nanoseconds and `time.Sleep d` as advancing the clock by
exactly `d` (real sleeps only take longer, which can only increase the
spacing proved below). -/

/-- The effective cooldown: `client.go` lines 62–65, default 1 s when the
configured cooldown is non-positive. -/
def effCooldown (cooldown : Int) : Int :=
  if cooldown ≤ 0 then second else cooldown

/-- The moment a `Chat` request starts, given the stored `lastReqAt` and the
clock value `now` at entry: `client.go` lines 67–76.  The code assigns this
same value back to `lastReqAt`. -/
def chatStartTime (cooldown lastReqAt now : Int) : Int :=
  let cd := effCooldown cooldown
  let elapsed := now - lastReqAt
  if elapsed < cd then now + (cd - elapsed) else now

/-- Start times of a sequence of `Chat` calls on one client: each call
observes the clock value from `nows` and updates `lastReqAt` to its own
start time. -/
def chatStartTimes (cooldown lastReqAt : Int) : List Int → List Int
  | [] => []
  | now :: rest =>
      let t := chatStartTime cooldown lastReqAt now
      t :: chatStartTimes cooldown t rest

theorem effCooldown_pos (cooldown : Int) : 0 < effCooldown cooldown := by
  unfold effCooldown second
  split <;> omega

theorem chatStartTime_ge (cooldown lastReqAt now : Int) :
    lastReqAt + effCooldown cooldown ≤ chatStartTime cooldown lastReqAt now := by
  unfold chatStartTime
  dsimp only
  split <;> omega

/-! ## LLM client: retry loop and wait computation (`client.go` 88–164) -/

/-- Is `c` an ASCII digit (the regexp class in `retryAfterRegex`)? -/
def isDigitChar (c : Char) : Bool := '0' ≤ c && c ≤ '9'

/-- Numeric value of a digit run (as produced by `strconv.Atoi` before its
range check). -/
def digitsToNat (ds : List Char) : Nat :=
  ds.foldl (fun a c => a * 10 + (c.toNat - 48)) 0

/-- Model of `strconv.Atoi` on a non-empty run of ASCII digits: Go returns
an out-of-range error when the value exceeds `int64` max. -/
def atoiDigits (ds : List Char) : Option Int :=
  if digitsToNat ds ≤ 2 ^ 63 - 1 then some (((digitsToNat ds : Int))) else none

/-- Try to match `reset after (\d+)s` at the head of `l` (already
lower-cased, matching the regexp's `(?i)` flag): the literal, then a
maximal digit run, then `s`.  Returns the captured digit run. -/
def resetAfterAt (l : List Char) : Option (List Char) :=
  if strStartsWith l ('r' :: 'e' :: 's' :: 'e' :: 't' :: ' ' :: 'a' :: 'f' :: 't' :: 'e' :: 'r' :: ' ' :: []) then
    let rest := l.drop 12
    let ds := rest.takeWhile isDigitChar
    match rest.drop ds.length with
    | 's' :: _ => if ds.isEmpty then none else some ds
    | _ => none
  else none

/-- Leftmost match of `retryAfterRegex` (`(?i)reset after (\d+)s`) in
`errStr`: Go's `FindStringSubmatch` scans left to right. -/
def findResetAfter : List Char → Option (List Char)
  | [] => none
  | l@(_ :: t) =>
    match resetAfterAt (strToLower l) with
    | some ds => some ds
    | none => findResetAfter t

/-- Model of `Client.computeWaitDuration` (`client.go` 149–164), returning
the wait as `int64` nanoseconds.  The exponential fallback computes
`1 << (try+1)` in Go `int` arithmetic. -/
def computeWaitDuration (errStr : List Char) (tryIdx : Nat) : Int :=
  match findResetAfter errStr with
  | some ds =>
    match atoiDigits ds with
    | some s => wrap64 (wrap64 (s + 1) * second)
    | none => wrap64 (wrap64 (2 ^ (tryIdx + 1)) * second)
  | none => wrap64 (wrap64 (2 ^ (tryIdx + 1)) * second)

/-- Rate-limit error classification (`client.go` line 104) over the
lower-cased error text. -/
def isRateLimitText (errStr : List Char) : Bool :=
  strContainsSub errStr ('4' :: '2' :: '9' :: []) ||
  strContainsSub errStr ('r' :: 'a' :: 't' :: 'e' :: ' ' :: 'l' :: 'i' :: 'm' :: 'i' :: 't' :: []) ||
  strContainsSub errStr ('r' :: 'e' :: 's' :: 'o' :: 'u' :: 'r' :: 'c' :: 'e' :: '_' :: 'e' :: 'x' :: 'h' :: 'a' :: 'u' :: 's' :: 't' :: 'e' :: 'd' :: [])

/-- Timeout error classification (`client.go` line 105) over the lower-cased
error text. -/
def isTimeoutText (errStr : List Char) : Bool :=
  strContainsSub errStr ('t' :: 'i' :: 'm' :: 'e' :: 'o' :: 'u' :: 't' :: []) ||
  strContainsSub errStr ('d' :: 'e' :: 'a' :: 'd' :: 'l' :: 'i' :: 'n' :: 'e' :: ' ' :: 'e' :: 'x' :: 'c' :: 'e' :: 'e' :: 'd' :: 'e' :: 'd' :: [])

/-- One tool call in an LLM reply (`llm/client.go` `ToolCall`). -/
structure ToolCall where
  id : List Char
  name : List Char
  args : List Char
deriving DecidableEq, Repr

/-- Result of one chat turn (`llm/client.go` `ChatResult`). -/
structure ChatResult where
  content : List Char
  toolCalls : List ToolCall
deriving DecidableEq, Repr

/-- Terminal outcome of the `Chat` retry loop. -/
inductive ChatOutcome where
  | ok : ChatResult → ChatOutcome
  | failed : List Char → ChatOutcome
  | cancelled : ChatOutcome
deriving DecidableEq, Repr

/-- Observable run of the retry loop: outcome, number of `doChat` attempts
made, and the waits slept between attempts (nanoseconds). -/
structure ChatRun where
  outcome : ChatOutcome
  attempts : Nat
  waits : List Int
deriving DecidableEq, Repr

/-- The retry loop of `Client.Chat` (`client.go` 96–132), from attempt
`tryIdx` on.  `oracle n` is the result of the `n`-th `doChat` call;
`cancel n` says whether the caller's context is cancelled during the wait
that follows a failed attempt `n`. -/
def chatRetryGo (oracle : Nat → Except (List Char) ChatResult)
    (cancel : Nat → Bool) (maxTries tryIdx : Nat) : ChatRun :=
  match oracle tryIdx with
  | .ok r => ⟨.ok r, 1, []⟩
  | .error e =>
    let errStr := strToLower e
    if h : (isRateLimitText errStr || isTimeoutText errStr) = true ∧ tryIdx < maxTries then
      let w := computeWaitDuration errStr tryIdx
      if cancel tryIdx then ⟨.cancelled, 1, []⟩
      else
        let rest := chatRetryGo oracle cancel maxTries (tryIdx + 1)
        ⟨rest.outcome, rest.attempts + 1, w :: rest.waits⟩
    else ⟨.failed e, 1, []⟩
termination_by maxTries - tryIdx
decreasing_by omega

/-- The effective retry bound of `Client.Chat` (`client.go` 88–91): the
configured `MaxRetries` (a Go `int`), defaulting to 3 when non-positive. -/
def effMaxTries (maxRetries : Int) : Nat :=
  if maxRetries ≤ 0 then 3 else maxRetries.toNat

/-- `Client.Chat`'s attempt loop started at attempt 0. -/
def clientChatLoop (maxRetries : Int) (oracle : Nat → Except (List Char) ChatResult)
    (cancel : Nat → Bool) : ChatRun :=
  chatRetryGo oracle cancel (effMaxTries maxRetries) 0

theorem chatRetryGo_attempts_le (oracle : Nat → Except (List Char) ChatResult)
    (cancel : Nat → Bool) (maxTries tryIdx : Nat) :
    (chatRetryGo oracle cancel maxTries tryIdx).attempts ≤ maxTries - tryIdx + 1 := by
  unfold chatRetryGo
  split
  · simp
  · split
    · dsimp only
      split <;> simp
    · dsimp only
      split
      · rename_i hcond
        have ih := chatRetryGo_attempts_le oracle cancel maxTries (tryIdx + 1)
        simp only
        omega
      · simp
termination_by maxTries - tryIdx
decreasing_by omega

theorem chatStartTimes_mem_ge (cooldown : Int) (nows : List Int) :
    ∀ lastReqAt a, a ∈ chatStartTimes cooldown lastReqAt nows →
      lastReqAt + effCooldown cooldown ≤ a := by
  induction nows with
  | nil => intro lastReqAt a ha; simp [chatStartTimes] at ha
  | cons now rest ih =>
    intro lastReqAt a ha
    simp only [chatStartTimes, List.mem_cons] at ha
    rcases ha with rfl | ha
    · exact chatStartTime_ge cooldown lastReqAt now
    · have h1 := chatStartTime_ge cooldown lastReqAt now
      have h2 := ih (chatStartTime cooldown lastReqAt now) a ha
      have h3 := effCooldown_pos cooldown
      omega

theorem chatRetryGo_stop_on_other (oracle : Nat → Except (List Char) ChatResult)
    (cancel : Nat → Bool) (maxTries tryIdx : Nat) (e : List Char)
    (horacle : oracle tryIdx = .error e)
    (hclass : (isRateLimitText (strToLower e) || isTimeoutText (strToLower e)) = false) :
    chatRetryGo oracle cancel maxTries tryIdx = ⟨.failed e, 1, []⟩ := by
  unfold chatRetryGo
  rw [horacle]
  dsimp only
  rw [dif_neg]
  simp [hclass]

theorem chatRetryGo_cancelled (oracle : Nat → Except (List Char) ChatResult)
    (cancel : Nat → Bool) (maxTries tryIdx : Nat) (e : List Char)
    (horacle : oracle tryIdx = .error e)
    (hclass : (isRateLimitText (strToLower e) || isTimeoutText (strToLower e)) = true)
    (hlt : tryIdx < maxTries) (hcancel : cancel tryIdx = true) :
    chatRetryGo oracle cancel maxTries tryIdx = ⟨.cancelled, 1, []⟩ := by
  unfold chatRetryGo
  rw [horacle]
  dsimp only
  rw [dif_pos ⟨hclass, hlt⟩, if_pos hcancel]

theorem chatRetryGo_retries (oracle : Nat → Except (List Char) ChatResult)
    (cancel : Nat → Bool) (maxTries tryIdx : Nat) (e : List Char)
    (horacle : oracle tryIdx = .error e)
    (hclass : (isRateLimitText (strToLower e) || isTimeoutText (strToLower e)) = true)
    (hlt : tryIdx < maxTries) (hcancel : cancel tryIdx = false) :
    chatRetryGo oracle cancel maxTries tryIdx =
      ⟨(chatRetryGo oracle cancel maxTries (tryIdx + 1)).outcome,
       (chatRetryGo oracle cancel maxTries (tryIdx + 1)).attempts + 1,
       computeWaitDuration (strToLower e) tryIdx ::
         (chatRetryGo oracle cancel maxTries (tryIdx + 1)).waits⟩ := by
  conv_lhs => unfold chatRetryGo
  rw [horacle]
  dsimp only
  rw [dif_pos ⟨hclass, hlt⟩, if_neg (by simp [hcancel])]

theorem computeWaitDuration_reset (errStr : List Char) (tryIdx : Nat) (ds : List Char)
    (hfind : findResetAfter errStr = some ds)
    (hbound : (((digitsToNat ds : Int)) + 1) * second < 2 ^ 63) :
    computeWaitDuration errStr tryIdx = (((digitsToNat ds : Int)) + 1) * second := by
  have hsec : second = 1000000000 := rfl
  rw [hsec] at hbound
  have hatoi : atoiDigits ds = some (((digitsToNat ds : Int))) := by
    unfold atoiDigits
    rw [if_pos]
    omega
  unfold computeWaitDuration
  rw [hfind]
  dsimp only
  rw [hatoi]
  dsimp only
  have h1 : wrap64 (((digitsToNat ds : Int)) + 1) = ((digitsToNat ds : Int)) + 1 := by
    apply wrap64_eq_self <;> omega
  rw [h1, hsec]
  apply wrap64_eq_self <;> omega

theorem computeWaitDuration_expo (errStr : List Char) (tryIdx : Nat)
    (hfind : findResetAfter errStr = none) (hsmall : tryIdx ≤ 32) :
    computeWaitDuration errStr tryIdx = 2 ^ (tryIdx + 1) * second := by
  unfold computeWaitDuration
  rw [hfind]
  have hpow : (2 : Int) ^ (tryIdx + 1) ≤ 2 ^ 33 := by
    apply pow_le_pow_right₀ (by norm_num)
    omega
  have hpos : (0 : Int) < 2 ^ (tryIdx + 1) := by positivity
  have h1 : wrap64 ((2 : Int) ^ (tryIdx + 1)) = 2 ^ (tryIdx + 1) := by
    apply wrap64_eq_self
    · omega
    · calc (2 : Int) ^ (tryIdx + 1) ≤ 2 ^ 33 := hpow
        _ < 2 ^ 63 := by norm_num
  rw [h1]
  apply wrap64_eq_self
  · have : (0 : Int) ≤ 2 ^ (tryIdx + 1) * second := by
      apply mul_nonneg (le_of_lt hpos)
      norm_num [second]
    omega
  · have hs : (second : Int) = 1000000000 := rfl
    calc (2 : Int) ^ (tryIdx + 1) * second ≤ 2 ^ 33 * second := by
          apply mul_le_mul_of_nonneg_right hpow
          norm_num [second]
      _ < 2 ^ 63 := by norm_num [second]

/-- **C1.**  Start-to-start pacing of `Client.Chat` (`llm/client.go` 59–81):
along any sequence of `Chat` calls on one client (clock readings `nows`),
every pair of start times `t1` (earlier) and `t2` (later) satisfies
`t2 - t1 ≥ cooldown`, where the effective cooldown defaults to 1 s when the
configured value is non-positive; each call records its own start time (not
its end) as the next call's `last_request_at`, which is exactly how
`chatStartTimes` threads the state. -/
theorem chat_cooldown_start_to_start_spacing (cooldown lastReqAt : Int)
    (nows : List Int) :
    (chatStartTimes cooldown lastReqAt nows).Pairwise
      (fun t1 t2 => effCooldown cooldown ≤ t2 - t1) := by
  induction nows generalizing lastReqAt with
  | nil => exact List.Pairwise.nil
  | cons now rest ih =>
    simp only [chatStartTimes]
    refine List.Pairwise.cons ?_ (ih _)
    intro b hb
    have := chatStartTimes_mem_ge cooldown rest (chatStartTime cooldown lastReqAt now) b hb
    omega

/-- **C2.**  The retry policy of `Client.Chat` (`llm/client.go` 88–132,
147–164): (1) at most `max_retries + 1` attempts are made, (2) with
`max_retries` defaulting to 3 when non-positive; (3) a failed attempt whose
lower-cased text matches neither the rate-limit nor the timeout substrings
ends the loop at once, returning that error; (4) when a retryable failure at
attempt `try` is followed by a retry, the wait slept is
`computeWaitDuration` of the lower-cased text; (5) an error text matching
`reset after Ns` waits `N+1` seconds at any attempt (for `N` within `int64`
duration range), e.g. `reset after 7s` waits 8 s; (6) otherwise the wait is
`2^(try+1)` seconds; (7) cancellation during a retry wait returns the
context error (outcome `cancelled`) without further attempts. -/
theorem chat_retry_policy (maxRetries : Int)
    (oracle : Nat → Except (List Char) ChatResult) (cancel : Nat → Bool)
    (maxTries tryIdx : Nat) (e errStr : List Char) (ds : List Char) :
    ((clientChatLoop maxRetries oracle cancel).attempts ≤ effMaxTries maxRetries + 1) ∧
    (maxRetries ≤ 0 → effMaxTries maxRetries = 3) ∧
    (oracle tryIdx = .error e →
      (isRateLimitText (strToLower e) || isTimeoutText (strToLower e)) = false →
      chatRetryGo oracle cancel maxTries tryIdx = ⟨.failed e, 1, []⟩) ∧
    (oracle tryIdx = .error e →
      (isRateLimitText (strToLower e) || isTimeoutText (strToLower e)) = true →
      tryIdx < maxTries → cancel tryIdx = false →
      chatRetryGo oracle cancel maxTries tryIdx =
        ⟨(chatRetryGo oracle cancel maxTries (tryIdx + 1)).outcome,
         (chatRetryGo oracle cancel maxTries (tryIdx + 1)).attempts + 1,
         computeWaitDuration (strToLower e) tryIdx ::
           (chatRetryGo oracle cancel maxTries (tryIdx + 1)).waits⟩) ∧
    (findResetAfter errStr = some ds →
      (((digitsToNat ds : Int)) + 1) * second < 2 ^ 63 →
      computeWaitDuration errStr tryIdx = (((digitsToNat ds : Int)) + 1) * second) ∧
    (computeWaitDuration ("llm error 429: reset after 7s".toList) tryIdx = 8 * second) ∧
    (findResetAfter errStr = none → tryIdx ≤ 32 →
      computeWaitDuration errStr tryIdx = 2 ^ (tryIdx + 1) * second) ∧
    (oracle tryIdx = .error e →
      (isRateLimitText (strToLower e) || isTimeoutText (strToLower e)) = true →
      tryIdx < maxTries → cancel tryIdx = true →
      chatRetryGo oracle cancel maxTries tryIdx = ⟨.cancelled, 1, []⟩) := by
  refine ⟨?_, ?_, ?_, ?_, ?_, ?_, ?_, ?_⟩
  · have := chatRetryGo_attempts_le oracle cancel (effMaxTries maxRetries) 0
    unfold clientChatLoop
    omega
  · intro h; unfold effMaxTries; rw [if_pos h]
  · exact chatRetryGo_stop_on_other oracle cancel maxTries tryIdx e
  · exact chatRetryGo_retries oracle cancel maxTries tryIdx e
  · intro hfind hbound
    exact computeWaitDuration_reset errStr tryIdx ds hfind hbound
  · have hfind : findResetAfter ("llm error 429: reset after 7s".toList) = some ['7'] := by
      decide
    have h8 := computeWaitDuration_reset ("llm error 429: reset after 7s".toList) tryIdx ['7']
      hfind (by decide)
    rw [h8]
    decide
  · exact computeWaitDuration_expo errStr tryIdx
  · exact chatRetryGo_cancelled oracle cancel maxTries tryIdx e

/-- Witness for `chat_retry_policy` at concrete inputs: a non-retryable
error stops after one attempt, and the `reset after 7s` wait is 8 s. -/
theorem chat_retry_policy_witness :
    ((fun _ => Except.error ('b' :: 'a' :: 'd' :: []) :
        Nat → Except (List Char) ChatResult) 0 = .error ('b' :: 'a' :: 'd' :: [])) ∧
    chatRetryGo (fun _ => .error ('b' :: 'a' :: 'd' :: [])) (fun _ => false) 3 0 =
      ⟨.failed ('b' :: 'a' :: 'd' :: []), 1, []⟩ ∧
    computeWaitDuration ("llm error 429: reset after 7s".toList) 0 = 8 * second := by
  refine ⟨rfl, ?_, ?_⟩
  · exact (chat_retry_policy 0 (fun _ => .error ('b' :: 'a' :: 'd' :: []))
      (fun _ => false) 3 0 ('b' :: 'a' :: 'd' :: []) [] []).2.2.1 rfl (by decide)
  · exact (chat_retry_policy 0 (fun _ => .error []) (fun _ => false) 3 0 [] [] []).2.2.2.2.2.1

/-! ## Adapter send-path retry policy

Models of `shouldRetryDiscordSend` / `discordSendBackoff` (discord adapter)
and `shouldRetryWhatsAppSend` / `whatsappSendBackoff` / `sendMessage`
(whatsapp adapter).  Go errors reaching these classifiers are modelled by
inductives carrying exactly the data the classifiers inspect. -/

/-- Errors seen by `shouldRetryDiscordSend`: context errors, a
`discordgo.RateLimitError` (with its `RetryAfter` duration), a
`discordgo.RESTError` with or without an HTTP response, a `net.Error`, or
anything else. -/
inductive DiscordSendError where
  | canceled
  | deadlineExceeded
  | rateLimited (retryAfter : Int)
  | rest (status : Int)
  | restNoResponse
  | net (isTimeout isTemporary : Bool)
  | other
deriving DecidableEq, Repr

/-- `discordSendBackoff` (discord adapter): clamp `attempt` to ≥ 1, then
`300 ms << min(attempt-1, 4)`.  Values stay far below `int64` range. -/
def discordSendBackoff (attempt : Int) : Int :=
  let a := if attempt < 1 then 1 else attempt
  let shift := min (a - 1) 4
  300 * millisecond * 2 ^ shift.toNat

/-- `shouldRetryDiscordSend` (discord adapter lines 223–255). -/
def shouldRetryDiscordSend : DiscordSendError → Int → Bool × Int
  | .canceled, _ => (false, 0)
  | .deadlineExceeded, _ => (false, 0)
  | .rateLimited ra, attempt =>
      if ra > 0 then (true, ra) else (true, discordSendBackoff attempt)
  | .rest code, attempt =>
      if code == 429 || (500 ≤ code && code ≤ 599) then
        (true, discordSendBackoff attempt)
      else (false, 0)
  | .restNoResponse, _ => (false, 0)
  | .net t tmp, attempt =>
      if t || tmp then (true, discordSendBackoff attempt) else (false, 0)
  | .other, _ => (false, 0)

/-- Errors seen by `shouldRetryWhatsAppSend`: context errors, a
`whatsappHTTPError` (status and parsed `Retry-After`), a `net.Error`, or
anything else. -/
inductive WhatsAppSendError where
  | canceled
  | deadlineExceeded
  | http (status : Int) (retryAfter : Int)
  | net (isTimeout isTemporary : Bool)
  | other
deriving DecidableEq, Repr

/-- `whatsappSendBackoff` (whatsapp adapter): same schedule as Discord. -/
def whatsappSendBackoff (attempt : Int) : Int :=
  let a := if attempt < 1 then 1 else attempt
  let shift := min (a - 1) 4
  300 * millisecond * 2 ^ shift.toNat

/-- `shouldRetryWhatsAppSend` (whatsapp adapter lines 641–669). -/
def shouldRetryWhatsAppSend : WhatsAppSendError → Int → Bool × Int
  | .canceled, _ => (false, 0)
  | .deadlineExceeded, _ => (false, 0)
  | .http code ra, attempt =>
      if code == 429 then
        if ra > 0 then (true, ra) else (true, whatsappSendBackoff attempt)
      else if 500 ≤ code && code ≤ 599 then (true, whatsappSendBackoff attempt)
      else (false, 0)
  | .net t tmp, attempt =>
      if t || tmp then (true, whatsappSendBackoff attempt) else (false, 0)
  | .other, _ => (false, 0)

/-- Terminal outcome of an adapter's send-with-retry loop. -/
inductive SendOutcome (E : Type) where
  | ok
  | failed (e : E)
  | cancelled
deriving DecidableEq, Repr

/-- Observable run of an adapter's send loop: outcome, attempts made, and
the waits slept between attempts. -/
structure SendRun (E : Type) where
  outcome : SendOutcome E
  attempts : Nat
  waits : List Int
deriving DecidableEq, Repr

/-- The shared send loop shape (`maxAttempts = 3` in both adapters):
`once n` is the error (if any) of the `n`-th provider call, `sr` the
adapter's retry classifier, `cancel n` whether the context fires during the
wait after attempt `n`.  Mirrors whatsapp `sendMessage` lines 455–475 and
discord `Send` lines 126–146. -/
def sendRetryGo {E : Type} (once : Nat → Option E) (sr : E → Int → Bool × Int)
    (cancel : Nat → Bool) (maxAttempts attempt : Nat) : SendRun E :=
  if _hle : attempt ≤ maxAttempts then
    match once attempt with
    | none => ⟨.ok, 1, []⟩
    | some e =>
      let rw := sr e ((attempt : Int))
      if rw.1 = false ∨ attempt = maxAttempts then ⟨.failed e, 1, []⟩
      else if cancel attempt then ⟨.cancelled, 1, []⟩
      else
        let rest := sendRetryGo once sr cancel maxAttempts (attempt + 1)
        ⟨rest.outcome, rest.attempts + 1, rw.2 :: rest.waits⟩
  else ⟨.ok, 0, []⟩
termination_by maxAttempts - attempt
decreasing_by omega

/-- The whatsapp adapter's send loop (`const maxAttempts = 3`). -/
def whatsappSendLoop (once : Nat → Option WhatsAppSendError) (cancel : Nat → Bool) :
    SendRun WhatsAppSendError :=
  sendRetryGo once shouldRetryWhatsAppSend cancel 3 1

/-- The discord adapter's send loop (`const maxAttempts = 3`). -/
def discordSendLoop (once : Nat → Option DiscordSendError) (cancel : Nat → Bool) :
    SendRun DiscordSendError :=
  sendRetryGo once shouldRetryDiscordSend cancel 3 1

theorem sendRetryGo_attempts_le {E : Type} (once : Nat → Option E)
    (sr : E → Int → Bool × Int) (cancel : Nat → Bool) (maxAttempts attempt : Nat) :
    (sendRetryGo once sr cancel maxAttempts attempt).attempts ≤
      maxAttempts - attempt + 1 := by
  unfold sendRetryGo
  split
  · split
    · simp
    · dsimp only
      split
      · simp
      · split
        · simp
        · rename_i hle _ hor _
          have ih := sendRetryGo_attempts_le once sr cancel maxAttempts (attempt + 1)
          simp only
          omega
  · simp
termination_by maxAttempts - attempt
decreasing_by omega

theorem sendRetryGo_no_retry {E : Type} (once : Nat → Option E)
    (sr : E → Int → Bool × Int) (cancel : Nat → Bool) (maxAttempts attempt : Nat)
    (e : E) (h1 : attempt ≤ maxAttempts) (h2 : once attempt = some e)
    (h3 : (sr e ((attempt : Int))).1 = false) :
    sendRetryGo once sr cancel maxAttempts attempt = ⟨.failed e, 1, []⟩ := by
  unfold sendRetryGo
  rw [dif_pos h1, h2]
  dsimp only
  rw [if_pos (Or.inl h3)]

theorem sendRetryGo_retry {E : Type} (once : Nat → Option E)
    (sr : E → Int → Bool × Int) (cancel : Nat → Bool) (maxAttempts attempt : Nat)
    (e : E) (h1 : attempt ≤ maxAttempts) (h2 : once attempt = some e)
    (h3 : (sr e ((attempt : Int))).1 = true) (h4 : attempt ≠ maxAttempts)
    (h5 : cancel attempt = false) :
    sendRetryGo once sr cancel maxAttempts attempt =
      ⟨(sendRetryGo once sr cancel maxAttempts (attempt + 1)).outcome,
       (sendRetryGo once sr cancel maxAttempts (attempt + 1)).attempts + 1,
       (sr e ((attempt : Int))).2 ::
         (sendRetryGo once sr cancel maxAttempts (attempt + 1)).waits⟩ := by
  conv_lhs => unfold sendRetryGo
  rw [dif_pos h1, h2]
  dsimp only
  rw [if_neg (by simp [h3, h4]), if_neg (by simp [h5])]

/-- **C5.**  The adapter send path (WhatsApp shown; Discord analogous and
included): (1) at most 3 attempts; (2) retry on 429 waiting the carried
`Retry-After` when positive, else backoff; (3) retry on 5xx and transient
network errors with backoff; (4) no retry on context cancellation/deadline
or non-429 4xx — the loop returns such an error at once; (5) the wait after
failing attempt `n` (i.e. before retry `n+1`) is `300 ms × 2^min(n-1, 4)`
on the backoff path; (6) a failed attempt classified retryable before the
last attempt sleeps the classifier's wait and continues. -/
theorem adapter_send_retry_policy (once : Nat → Option WhatsAppSendError)
    (cancel : Nat → Bool) (code ra : Int) (t tmp : Bool) (attempt : Nat)
    (e : WhatsAppSendError) :
    ((whatsappSendLoop once cancel).attempts ≤ 3) ∧
    (shouldRetryWhatsAppSend .canceled (attempt : Int) = (false, 0)) ∧
    (shouldRetryWhatsAppSend .deadlineExceeded (attempt : Int) = (false, 0)) ∧
    (ra > 0 → shouldRetryWhatsAppSend (.http 429 ra) (attempt : Int) = (true, ra)) ∧
    (ra ≤ 0 → shouldRetryWhatsAppSend (.http 429 ra) (attempt : Int) =
      (true, whatsappSendBackoff (attempt : Int))) ∧
    (500 ≤ code → code ≤ 599 → shouldRetryWhatsAppSend (.http code ra) (attempt : Int) =
      (true, whatsappSendBackoff (attempt : Int))) ∧
    (400 ≤ code → code < 500 → code ≠ 429 →
      shouldRetryWhatsAppSend (.http code ra) (attempt : Int) = (false, 0)) ∧
    ((t || tmp) = true → shouldRetryWhatsAppSend (.net t tmp) (attempt : Int) =
      (true, whatsappSendBackoff (attempt : Int))) ∧
    (shouldRetryDiscordSend .canceled (attempt : Int) = (false, 0)) ∧
    (shouldRetryDiscordSend .deadlineExceeded (attempt : Int) = (false, 0)) ∧
    (ra > 0 → shouldRetryDiscordSend (.rateLimited ra) (attempt : Int) = (true, ra)) ∧
    (code == 429 || (500 ≤ code && code ≤ 599) →
      shouldRetryDiscordSend (.rest code) (attempt : Int) =
        (true, discordSendBackoff (attempt : Int))) ∧
    (400 ≤ code → code < 500 → code ≠ 429 →
      shouldRetryDiscordSend (.rest code) (attempt : Int) = (false, 0)) ∧
    (1 ≤ attempt →
      whatsappSendBackoff (attempt : Int) =
        300 * millisecond * 2 ^ (min ((attempt : Int) - 1) 4).toNat) ∧
    (1 ≤ attempt →
      discordSendBackoff (attempt : Int) =
        300 * millisecond * 2 ^ (min ((attempt : Int) - 1) 4).toNat) ∧
    (attempt ≤ 3 → once attempt = some e →
      (shouldRetryWhatsAppSend e (attempt : Int)).1 = false →
      sendRetryGo once shouldRetryWhatsAppSend cancel 3 attempt =
        ⟨.failed e, 1, []⟩) ∧
    (attempt ≤ 3 → once attempt = some e →
      (shouldRetryWhatsAppSend e (attempt : Int)).1 = true → attempt ≠ 3 →
      cancel attempt = false →
      sendRetryGo once shouldRetryWhatsAppSend cancel 3 attempt =
        ⟨(sendRetryGo once shouldRetryWhatsAppSend cancel 3 (attempt + 1)).outcome,
         (sendRetryGo once shouldRetryWhatsAppSend cancel 3 (attempt + 1)).attempts + 1,
         (shouldRetryWhatsAppSend e (attempt : Int)).2 ::
           (sendRetryGo once shouldRetryWhatsAppSend cancel 3 (attempt + 1)).waits⟩) := by
  refine ⟨?_, rfl, rfl, ?_, ?_, ?_, ?_, ?_, rfl, rfl, ?_, ?_, ?_, ?_, ?_, ?_, ?_⟩
  · have := sendRetryGo_attempts_le once shouldRetryWhatsAppSend cancel 3 1
    unfold whatsappSendLoop
    omega
  · intro h
    simp [shouldRetryWhatsAppSend, h]
  · intro h
    simp [shouldRetryWhatsAppSend, show ¬ra > 0 by omega]
  · intro h1 h2
    simp [shouldRetryWhatsAppSend, show (code == 429) = false by simp; omega, h1, h2]
  · intro h1 h2 h3
    simp [shouldRetryWhatsAppSend, show (code == 429) = false by simp; omega,
      show ¬(500 : Int) ≤ code by omega]
  · intro h
    simp [shouldRetryWhatsAppSend, h]
  · intro h
    simp [shouldRetryDiscordSend, h]
  · intro h
    simp [shouldRetryDiscordSend, h]
  · intro h1 h2 h3
    simp [shouldRetryDiscordSend, show (code == 429) = false by simp; omega,
      show ¬(500 : Int) ≤ code by omega]
  · intro h
    unfold whatsappSendBackoff
    rw [if_neg (by omega)]
  · intro h
    unfold discordSendBackoff
    rw [if_neg (by omega)]
  · intro h1 h2 h3
    exact sendRetryGo_no_retry once shouldRetryWhatsAppSend cancel 3 attempt e h1 h2 h3
  · intro h1 h2 h3 h4 h5
    exact sendRetryGo_retry once shouldRetryWhatsAppSend cancel 3 attempt e h1 h2 h3 h4 h5

/-- Witness for `adapter_send_retry_policy`: a 429 with `Retry-After: 2 s`
retries after exactly 2 s; a 400 is not retried; the first backoff is
300 ms. -/
theorem adapter_send_retry_policy_witness :
    shouldRetryWhatsAppSend (.http 429 (2 * second)) ((1 : Nat) : Int) =
      (true, 2 * second) ∧
    shouldRetryWhatsAppSend (.http 400 0) ((1 : Nat) : Int) = (false, 0) ∧
    whatsappSendBackoff ((1 : Nat) : Int) =
      300 * millisecond * 2 ^ (min (((1 : Nat) : Int) - 1) 4).toNat := by
  have h := adapter_send_retry_policy (fun _ => none) (fun _ => false)
    400 (2 * second) false false 1 .other
  refine ⟨h.2.2.2.1 (by norm_num [second]), ?_, h.2.2.2.2.2.2.2.2.2.2.2.2.2.1 (by norm_num)⟩
  exact h.2.2.2.2.2.2.1 (by norm_num) (by norm_num) (by norm_num)

/-! ## Outbound messages and adapter send preludes -/

/-- Transport-level identifiers (`bus.Delivery`, fields as used by the
adapters in `src`). -/
structure Delivery where
  messageID : List Char
  replyToID : List Char
  threadID : List Char
  isDirect : Bool
deriving DecidableEq, Repr

/-- One reply to deliver (`bus.OutboundMessage`, fields as used by the
adapters in `src` and described in spec §3). -/
structure OutboundMessage where
  channel : List Char
  chatID : List Char
  content : List Char
  replyTo : List Char
  delivery : Delivery
deriving DecidableEq, Repr

/-- How an adapter's `Send` resolves before (or instead of) any provider
API call. -/
inductive SendPrelude where
  | failed (msg : List Char)
  | skip
  | provider
deriving DecidableEq, Repr

/-- The discord adapter's `Send` up to the provider call (discord adapter
lines 100–127): chat-id check, empty-content check, connection check,
fast-fail on an already-cancelled context, then the provider call. -/
def discordSendPrelude (connected ctxDone : Bool) (msg : OutboundMessage) :
    SendPrelude :=
  if trimSpace msg.chatID = [] then .failed ("chat_id is empty".toList)
  else if trimSpace msg.content = [] then .skip
  else if !connected then .failed ("discord not connected".toList)
  else if ctxDone then .failed ("context canceled".toList)
  else .provider

/-- The whatsapp adapter's `Send` up to the provider call (whatsapp adapter
lines 429–453): chat-id check, empty-content check, then the request is
built and sent. -/
def whatsappSendPrelude (msg : OutboundMessage) : SendPrelude :=
  if trimSpace msg.chatID = [] then .failed ("chat_id is empty".toList)
  else if trimSpace msg.content = [] then .skip
  else .provider

/-- The telegram adapter's `Send` up to the provider call
(`channels/telegram/telegram.go` 111–127 with `parseTelegramChatID`
239–248): empty-content check first, then chat-id parsing (which only
fails on an empty trimmed chat id), then the connection check. -/
def telegramSendPrelude (connected : Bool) (msg : OutboundMessage) :
    SendPrelude :=
  if trimSpace msg.content = [] then .skip
  else if trimSpace msg.chatID = [] then .failed ("chat_id is empty".toList)
  else if !connected then .failed ("telegram not connected".toList)
  else .provider

/-- **C4 (counterexample).**  The claim says every `Send` of a message with
empty trimmed content returns nil with no provider call *regardless of the
other fields*; but the discord adapter checks `chat_id` first: with both
fields empty it returns the error `chat_id is empty` instead of nil (the
whatsapp adapter behaves the same way). -/
theorem empty_content_send_counterexample :
    trimSpace (OutboundMessage.mk ("discord".toList) [] [] [] ⟨[], [], [], false⟩).content
      = [] ∧
    discordSendPrelude true false
        (OutboundMessage.mk ("discord".toList) [] [] [] ⟨[], [], [], false⟩)
      = .failed ("chat_id is empty".toList) ∧
    discordSendPrelude true false
        (OutboundMessage.mk ("discord".toList) [] [] [] ⟨[], [], [], false⟩)
      ≠ .skip ∧
    whatsappSendPrelude
        (OutboundMessage.mk ("whatsapp".toList) [] [] [] ⟨[], [], [], false⟩)
      ≠ .skip := by
  refine ⟨rfl, rfl, ?_, ?_⟩ <;> decide

/-- **C4 (amended).**  Empty trimmed content means `Send` returns nil with
no provider call: unconditionally for Telegram; for Discord and WhatsApp
provided the trimmed `chat_id` is non-empty — when it is empty those two
return a `chat_id is empty` error instead (still without any provider
call); in every case an empty-content message never reaches the provider. -/
theorem empty_content_send_amended (msg : OutboundMessage)
    (connected ctxDone : Bool) :
    (trimSpace msg.content = [] → telegramSendPrelude connected msg = .skip) ∧
    (trimSpace msg.chatID ≠ [] → trimSpace msg.content = [] →
      discordSendPrelude connected ctxDone msg = .skip) ∧
    (trimSpace msg.chatID ≠ [] → trimSpace msg.content = [] →
      whatsappSendPrelude msg = .skip) ∧
    (trimSpace msg.chatID = [] →
      discordSendPrelude connected ctxDone msg = .failed ("chat_id is empty".toList) ∧
      whatsappSendPrelude msg = .failed ("chat_id is empty".toList)) ∧
    (trimSpace msg.content = [] →
      discordSendPrelude connected ctxDone msg ≠ .provider ∧
      whatsappSendPrelude msg ≠ .provider ∧
      telegramSendPrelude connected msg ≠ .provider) := by
  refine ⟨?_, ?_, ?_, ?_, ?_⟩
  · intro h
    unfold telegramSendPrelude
    rw [if_pos h]
  · intro h1 h2
    unfold discordSendPrelude
    rw [if_neg h1, if_pos h2]
  · intro h1 h2
    unfold whatsappSendPrelude
    rw [if_neg h1, if_pos h2]
  · intro h
    constructor
    · unfold discordSendPrelude; rw [if_pos h]
    · unfold whatsappSendPrelude; rw [if_pos h]
  · intro h
    refine ⟨?_, ?_, ?_⟩
    · unfold discordSendPrelude
      by_cases hc : trimSpace msg.chatID = []
      · rw [if_pos hc]; simp
      · rw [if_neg hc, if_pos h]; simp
    · unfold whatsappSendPrelude
      by_cases hc : trimSpace msg.chatID = []
      · rw [if_pos hc]; simp
      · rw [if_neg hc, if_pos h]; simp
    · unfold telegramSendPrelude
      rw [if_pos h]; simp

/-- Witness for `empty_content_send_amended` at a concrete message. -/
theorem empty_content_send_amended_witness :
    telegramSendPrelude true
        (OutboundMessage.mk ("telegram".toList) ("42".toList) ("  ".toList) []
          ⟨[], [], [], false⟩) = .skip ∧
    whatsappSendPrelude
        (OutboundMessage.mk ("whatsapp".toList) ("42".toList) ("  ".toList) []
          ⟨[], [], [], false⟩) = .skip := by
  constructor
  · exact (empty_content_send_amended
      (OutboundMessage.mk ("telegram".toList) ("42".toList) ("  ".toList) []
        ⟨[], [], [], false⟩) true false).1 (by decide)
  · exact (empty_content_send_amended
      (OutboundMessage.mk ("whatsapp".toList) ("42".toList) ("  ".toList) []
        ⟨[], [], [], false⟩) true false).2.2.1 (by decide) (by decide)

/-! ## Channel manager: outbound dispatcher (`channels` manager 109–150) -/

/-- Result of one adapter `Send` as the dispatcher observes it. -/
inductive DispatchSendResult where
  | ok
  | canceled
  | err (text : List Char)
deriving DecidableEq, Repr

/-- `Manager.setChannelError` (manager lines 139–150) on the
`lastErrorByChannel` map: empty name is ignored, empty message deletes the
entry, otherwise the entry is set. -/
def setChannelError (m : List Char → Option (List Char)) (name msg : List Char) :
    List Char → Option (List Char) :=
  if name = [] then m
  else fun n => if n = name then (if msg = [] then none else some msg) else m n

/-- One iteration of `Manager.dispatchOutbound` (manager lines 109–127) for
a consumed message: look up the adapter by `msg.channel` (drop if missing),
call `Send`, record a non-cancellation error via `setChannelError`.
Returns the updated map and the `Send` calls made (zero or one). -/
def dispatchStep (channels : List Char → Option Nat)
    (send : Nat → OutboundMessage → DispatchSendResult)
    (lastErr : List Char → Option (List Char)) (msg : OutboundMessage) :
    (List Char → Option (List Char)) × List (Nat × OutboundMessage) :=
  match channels msg.channel with
  | none => (lastErr, [])
  | some ch =>
    match send ch msg with
    | .ok => (lastErr, [(ch, msg)])
    | .canceled => (lastErr, [(ch, msg)])
    | .err e => (setChannelError lastErr msg.channel e, [(ch, msg)])

/-- The dispatcher loop over a sequence of consumed messages: each message
is handled by `dispatchStep` and the loop continues with the next one. -/
def dispatchLoop (channels : List Char → Option Nat)
    (send : Nat → OutboundMessage → DispatchSendResult) :
    (List Char → Option (List Char)) → List OutboundMessage →
    (List Char → Option (List Char)) × List (Nat × OutboundMessage)
  | lastErr, [] => (lastErr, [])
  | lastErr, m :: rest =>
    let s := dispatchStep channels send lastErr m
    let r := dispatchLoop channels send s.1 rest
    (r.1, s.2 ++ r.2)

/-- **C6 (counterexample).**  The claim says a non-cancellation `Send`
error is recorded as the channel's `last_error`; but `setChannelError`
*deletes* the entry when the error text is empty, so a non-cancellation
error whose text is `""` is not recorded: here channel `c` exists, `Send`
is called and fails non-cancelled with empty text, yet the map still has
no entry under `c`. -/
theorem dispatch_outbound_counterexample :
    (dispatchStep (fun n => if n = ('c' :: []) then some 0 else none)
        (fun _ _ => .err []) (fun _ => none)
        (OutboundMessage.mk ('c' :: []) ('x' :: []) ('h' :: 'i' :: []) []
          ⟨[], [], [], false⟩)).2
      = [(0, OutboundMessage.mk ('c' :: []) ('x' :: []) ('h' :: 'i' :: []) []
          ⟨[], [], [], false⟩)] ∧
    (dispatchStep (fun n => if n = ('c' :: []) then some 0 else none)
        (fun _ _ => .err []) (fun _ => none)
        (OutboundMessage.mk ('c' :: []) ('x' :: []) ('h' :: 'i' :: []) []
          ⟨[], [], [], false⟩)).1 ('c' :: [])
      = none := by
  constructor <;> rfl

/-- **C6 (amended).**  For every message consumed by the outbound
dispatcher: an unknown channel is dropped — no `Send` call, the
`last_error` map untouched (in particular nothing recorded under that
name); a matching channel gets exactly one `Send` call; a non-cancellation
`Send` error with non-empty text on a channel with non-empty name is
recorded as that channel's `last_error`; a cancellation leaves the map
untouched; and the loop always continues with the next message,
concatenating the per-message `Send` calls. -/
theorem dispatch_outbound_policy (channels : List Char → Option Nat)
    (send : Nat → OutboundMessage → DispatchSendResult)
    (lastErr : List Char → Option (List Char)) (msg : OutboundMessage)
    (ch : Nat) (e : List Char) (rest : List OutboundMessage) :
    (channels msg.channel = none →
      dispatchStep channels send lastErr msg = (lastErr, [])) ∧
    (channels msg.channel = some ch →
      (dispatchStep channels send lastErr msg).2 = [(ch, msg)]) ∧
    (channels msg.channel = some ch → send ch msg = .err e → e ≠ [] →
      msg.channel ≠ [] →
      (dispatchStep channels send lastErr msg).1 msg.channel = some e) ∧
    (channels msg.channel = some ch → send ch msg = .canceled →
      (dispatchStep channels send lastErr msg).1 = lastErr) ∧
    (dispatchLoop channels send lastErr (msg :: rest) =
      ((dispatchLoop channels send (dispatchStep channels send lastErr msg).1 rest).1,
       (dispatchStep channels send lastErr msg).2 ++
         (dispatchLoop channels send (dispatchStep channels send lastErr msg).1 rest).2)) := by
  refine ⟨?_, ?_, ?_, ?_, rfl⟩
  · intro h
    unfold dispatchStep
    rw [h]
  · intro h
    unfold dispatchStep
    rw [h]
    dsimp only
    cases hs : send ch msg <;> simp [hs]
  · intro h1 h2 h3 h4
    simp only [dispatchStep, h1, h2, setChannelError, if_neg h4]
    simp [h3]
  · intro h1 h2
    unfold dispatchStep
    rw [h1]
    dsimp only
    rw [h2]

/-- Witness for `dispatch_outbound_policy`: the unknown channel `nope` is
dropped with no `Send` call and no recorded error, and a real error text is
recorded. -/
theorem dispatch_outbound_policy_witness :
    dispatchStep (fun _ => none) (fun _ _ => .ok) (fun _ => none)
        (OutboundMessage.mk ("nope".toList) ('x' :: []) ('h' :: []) []
          ⟨[], [], [], false⟩)
      = ((fun _ => none), []) ∧
    (dispatchStep (fun n => if n = ('c' :: []) then some 0 else none)
        (fun _ _ => .err ("send failed".toList)) (fun _ => none)
        (OutboundMessage.mk ('c' :: []) ('x' :: []) ('h' :: []) []
          ⟨[], [], [], false⟩)).1 ('c' :: [])
      = some ("send failed".toList) := by
  constructor
  · exact (dispatch_outbound_policy (fun _ => none) (fun _ _ => .ok) (fun _ => none)
      (OutboundMessage.mk ("nope".toList) ('x' :: []) ('h' :: []) [] ⟨[], [], [], false⟩)
      0 [] []).1 rfl
  · exact (dispatch_outbound_policy (fun n => if n = ('c' :: []) then some 0 else none)
      (fun _ _ => .err ("send failed".toList)) (fun _ => none)
      (OutboundMessage.mk ('c' :: []) ('x' :: []) ('h' :: []) [] ⟨[], [], [], false⟩)
      0 ("send failed".toList) []).2.2.1 (by decide) rfl (by decide) (by decide)

/-! ## Channel manager: `StopAll` (manager lines 73–91) -/

/-- The manager state relevant to `StartAll`/`StopAll`: the `running` flag,
whether the `sync.Once` guarding `StopAll` has fired, and the registered
channel names. -/
structure MgrState where
  running : Bool
  stopUsed : Bool
  channels : List (List Char)
deriving DecidableEq, Repr

/-- `Manager.StartAll` as far as these flags go (manager lines 40–52): a
no-op when already running, else mark running.  It never resets the
`sync.Once`. -/
def managerStartAll (s : MgrState) : MgrState :=
  if s.running then s else { s with running := true }

/-- `Manager.StopAll` (manager lines 73–91): the body runs under
`stopOnce.Do`, so only when the `Once` has not fired; it marks not-running
and calls `Stop` on every registered channel.  Returns the new state and
the names whose `Stop` was called; the Go function always returns `nil`. -/
def managerStopAll (s : MgrState) : MgrState × List (List Char) :=
  if s.stopUsed then (s, [])
  else ({ s with running := false, stopUsed := true }, s.channels)

/-- **C10.**  `StopAll` is guarded by a `sync.Once`: (1) the first call on
a fresh manager marks not-running, fires the once, and calls `Stop` on
every registered channel; (2) once the once has fired every later `StopAll`
leaves the state unchanged and calls `Stop` on no channel; (3) after any
`StopAll` the once has fired; (4) `StartAll` never resets it — so a
`StartAll` between two `StopAll`s does not let the second one act. -/
theorem stopAll_once_guard (s : MgrState) :
    (s.stopUsed = false →
      managerStopAll s =
        ({ s with running := false, stopUsed := true }, s.channels)) ∧
    (s.stopUsed = true → managerStopAll s = (s, [])) ∧
    ((managerStopAll s).1.stopUsed = true) ∧
    ((managerStartAll s).stopUsed = s.stopUsed) ∧
    (managerStopAll (managerStartAll (managerStopAll s).1) =
      ((managerStartAll (managerStopAll s).1), [])) := by
  refine ⟨?_, ?_, ?_, ?_, ?_⟩
  · intro h
    unfold managerStopAll
    rw [if_neg (by simp [h])]
  · intro h
    unfold managerStopAll
    rw [if_pos h]
  · unfold managerStopAll
    split
    · rename_i h; exact h
    · rfl
  · unfold managerStartAll
    split <;> rfl
  · have h1 : (managerStopAll s).1.stopUsed = true := by
      unfold managerStopAll
      split
      · rename_i h; exact h
      · rfl
    have h2 : (managerStartAll (managerStopAll s).1).stopUsed = true := by
      unfold managerStartAll
      split <;> simp [h1]
    generalize hT : managerStartAll (managerStopAll s).1 = T at h2 ⊢
    unfold managerStopAll
    rw [if_pos h2]

/-- Witness for `stopAll_once_guard` at a concrete running manager with two
channels: the second `StopAll` after a restart stops nothing. -/
theorem stopAll_once_guard_witness :
    managerStopAll (MgrState.mk true false [('a' :: []), ('b' :: [])]) =
      (MgrState.mk false true [('a' :: []), ('b' :: [])],
        [('a' :: []), ('b' :: [])]) ∧
    managerStopAll
        (managerStartAll
          (managerStopAll (MgrState.mk true false [('a' :: []), ('b' :: [])])).1) =
      ((managerStartAll
          (managerStopAll (MgrState.mk true false [('a' :: []), ('b' :: [])])).1), []) := by
  constructor
  · exact (stopAll_once_guard (MgrState.mk true false [('a' :: []), ('b' :: [])])).1 rfl
  · exact (stopAll_once_guard (MgrState.mk true false [('a' :: []), ('b' :: [])])).2.2.2.2

/-! ## WhatsApp webhook verification handshake (whatsapp adapter 530–543) -/

/-- A plain-text HTTP response as produced by the verify handler. -/
structure HTTPTextResponse where
  status : Nat
  contentType : List Char
  body : List Char
deriving DecidableEq, Repr

/-- `Channel.handleVerify` (whatsapp adapter lines 530–543): trim the
configured verify token and the `hub.mode` / `hub.verify_token` query
values (`hub.challenge` stays raw); reject with 403 `forbidden` unless the
mode is `subscribe`, the token is non-empty and the token equals the
configured one; on success echo the challenge as `text/plain`. -/
def handleVerify (cfgVerifyToken mode token challenge : List Char) :
    HTTPTextResponse :=
  let vt := trimSpace cfgVerifyToken
  let m := trimSpace mode
  let t := trimSpace token
  if m ≠ "subscribe".toList ∨ t = [] ∨ t ≠ vt then
    ⟨403, "text/plain; charset=utf-8".toList, "forbidden\n".toList⟩
  else ⟨200, "text/plain; charset=utf-8".toList, challenge⟩

/-- **C7.**  For a configured verify token that is non-empty after trimming
(which `Start` enforces before the handler can run): the GET handler
accepts exactly when `hub.mode` is `subscribe` and `hub.verify_token`
equals the configured token (comparison after whitespace trimming on both
sides), answering 200 `text/plain` with the `hub.challenge` value echoed
verbatim; every other combination gets 403 with the fixed `forbidden` body
and no challenge echo. -/
theorem whatsapp_verify_handshake (cfg mode token challenge : List Char)
    (hcfg : trimSpace cfg ≠ []) :
    (trimSpace mode = "subscribe".toList ∧ trimSpace token = trimSpace cfg →
      handleVerify cfg mode token challenge =
        ⟨200, "text/plain; charset=utf-8".toList, challenge⟩) ∧
    (¬(trimSpace mode = "subscribe".toList ∧ trimSpace token = trimSpace cfg) →
      handleVerify cfg mode token challenge =
        ⟨403, "text/plain; charset=utf-8".toList, "forbidden\n".toList⟩) := by
  constructor
  · rintro ⟨h1, h2⟩
    unfold handleVerify
    rw [if_neg]
    push_neg
    exact ⟨h1, by rw [h2]; exact ⟨hcfg, rfl⟩⟩
  · intro h
    unfold handleVerify
    rw [if_pos]
    by_cases h1 : trimSpace mode = "subscribe".toList
    · right
      by_cases h2 : trimSpace token = trimSpace cfg
      · exact absurd ⟨h1, h2⟩ h
      · right; exact h2
    · left; exact h1

/-- Witness for `whatsapp_verify_handshake`: token `T` matches (200 with
challenge echoed); token `T2` does not (403). -/
theorem whatsapp_verify_handshake_witness :
    handleVerify ('T' :: []) ("subscribe".toList) ('T' :: []) ('X' :: []) =
      ⟨200, "text/plain; charset=utf-8".toList, 'X' :: []⟩ ∧
    handleVerify ('T' :: []) ("subscribe".toList) ('T' :: '2' :: []) ('X' :: []) =
      ⟨403, "text/plain; charset=utf-8".toList, "forbidden\n".toList⟩ := by
  constructor
  · exact (whatsapp_verify_handshake ('T' :: []) ("subscribe".toList) ('T' :: [])
      ('X' :: []) (by decide)).1 (by constructor <;> decide)
  · exact (whatsapp_verify_handshake ('T' :: []) ("subscribe".toList)
      ('T' :: '2' :: []) ('X' :: []) (by decide)).2 (by decide)

/-! ## LLM client: locking structure of `Chat` / `ListModels` / `ProbeModel`

`Client.Chat` (`llm/client.go` 51–53) acquires `c.mu` on entry and releases
it on return, so its upstream request runs inside the critical section.
`Client.ListModels` (`llm/models.go` 93–110) and `Client.ProbeModel`
(`llm/models.go` 151–183) never touch `c.mu`: `ProbeModel` copies the
client and calls `doChat` directly.  The events of each operation are
derived from that source structure; executions of two concurrent
operations are their order-preserving interleavings subject to mutex
semantics. -/

/-- Events of the locking model: mutex acquire/release and the start/end of
one upstream HTTP request, each tagged with a goroutine id. -/
inductive MuEv where
  | acquire (tid : Nat)
  | release (tid : Nat)
  | reqStart (tid : Nat)
  | reqEnd (tid : Nat)
deriving DecidableEq, Repr

/-- The three public operations of the LLM client. -/
inductive LLMOp where
  | chat
  | listModels
  | probeModel
deriving DecidableEq, Repr

/-- Event sequence of one operation by goroutine `t`, read off the source:
`Chat` wraps its request in the mutex; `ListModels` and `ProbeModel` issue
their request with no locking at all. -/
def opEvents : LLMOp → Nat → List MuEv
  | .chat, t => [.acquire t, .reqStart t, .reqEnd t, .release t]
  | .listModels, t => [.reqStart t, .reqEnd t]
  | .probeModel, t => [.reqStart t, .reqEnd t]

/-- All order-preserving interleavings of two event sequences, with
structural fuel so that the definition evaluates by kernel reduction. -/
def mergesFuel : Nat → List MuEv → List MuEv → List (List MuEv)
  | _, [], bs => [bs]
  | _, a :: as, [] => [a :: as]
  | 0, as, bs => [as ++ bs]
  | n + 1, a :: as, b :: bs =>
      (mergesFuel n as (b :: bs)).map (a :: ·) ++
      (mergesFuel n (a :: as) bs).map (b :: ·)

/-- All order-preserving interleavings of two event sequences. -/
def mergesOf (as bs : List MuEv) : List (List MuEv) :=
  mergesFuel (as.length + bs.length) as bs

/-- Mutex semantics over a trace: an `acquire` succeeds only when the mutex
is free, a `release` only by the current holder. -/
def mutexOk : Option Nat → List MuEv → Bool
  | _, [] => true
  | none, .acquire t :: rest => mutexOk (some t) rest
  | some _, .acquire _ :: _ => false
  | some h, .release t :: rest => if h = t then mutexOk none rest else false
  | none, .release _ :: _ => false
  | st, .reqStart _ :: rest => mutexOk st rest
  | st, .reqEnd _ :: rest => mutexOk st rest

/-- Does the trace ever have two upstream requests in flight at once?
`cur` counts requests started and not yet ended. -/
def hasTwoInFlight : Nat → List MuEv → Bool
  | _, [] => false
  | cur, .reqStart _ :: rest =>
      if cur + 1 ≥ 2 then true else hasTwoInFlight (cur + 1) rest
  | cur, .reqEnd _ :: rest => hasTwoInFlight (cur - 1) rest
  | cur, .acquire _ :: rest => hasTwoInFlight cur rest
  | cur, .release _ :: rest => hasTwoInFlight cur rest

/-- **C3 (counterexample).**  The claim says the client mutex serializes
`Chat`, `ListModels` and `ProbeModel`, so one instance never has two
upstream requests in flight.  But `ListModels` (and `ProbeModel`) never
acquire the mutex: the interleaving below of two `ListModels` calls is a
valid execution (mutex semantics hold vacuously) with two requests in
flight at once. -/
theorem llm_client_two_in_flight_counterexample :
    [MuEv.reqStart 0, MuEv.reqStart 1, MuEv.reqEnd 0, MuEv.reqEnd 1] ∈
        mergesOf (opEvents .listModels 0) (opEvents .listModels 1) ∧
    mutexOk none [MuEv.reqStart 0, MuEv.reqStart 1, MuEv.reqEnd 0, MuEv.reqEnd 1]
      = true ∧
    hasTwoInFlight 0 [MuEv.reqStart 0, MuEv.reqStart 1, MuEv.reqEnd 0, MuEv.reqEnd 1]
      = true := by
  refine ⟨?_, rfl, rfl⟩
  decide

/-- **C3 (amended).**  Only `Chat` takes the client mutex, and it holds it
across its whole upstream request; hence two concurrent `Chat` calls on the
same instance are serialized — no mutex-valid interleaving of two `Chat`
operations ever has two requests in flight — while `ListModels` and
`ProbeModel` take no lock and may overlap (see the counterexample). -/
theorem chat_serialized_by_mutex (trace : List MuEv)
    (hm : trace ∈ mergesOf (opEvents .chat 0) (opEvents .chat 1))
    (hv : mutexOk none trace = true) :
    hasTwoInFlight 0 trace = false := by
  revert hv
  revert hm
  revert trace
  decide

/-- Witness for `chat_serialized_by_mutex`: the sequential execution of the
two `Chat` calls. -/
theorem chat_serialized_by_mutex_witness :
    hasTwoInFlight 0 (opEvents .chat 0 ++ opEvents .chat 1) = false :=
  chat_serialized_by_mutex (opEvents .chat 0 ++ opEvents .chat 1)
    (by decide) (by decide)

/-! ## Skill registry: secure zip extraction (`tools/skill_registry.go`)

`extractZipSecure` (lines 402–465) cleans each entry name, rejects names
that begin with `..` or are absolute, rejects escapes of the target
directory, symlinks and oversized entries; `ClawHubRegistry.Install`
(lines 207–298) wraps extraction in a deferred cleanup that removes the
target directory unless the whole install succeeded. -/

/-- Split a path on `/` (helper for the lexical `Clean` algorithm). -/
def splitOnSlash : List Char → List (List Char)
  | [] => [[]]
  | '/' :: rest => [] :: splitOnSlash rest
  | c :: rest =>
    match splitOnSlash rest with
    | seg :: segs => (c :: seg) :: segs
    | [] => [c :: []]

/-- Join path elements with `/`. -/
def joinWithSlash : List (List Char) → List Char
  | [] => []
  | [s] => s
  | s :: rest => s ++ '/' :: joinWithSlash rest

/-- One step of the lexical path-cleaning stack: drop empty and `.`
elements, let `..` pop a non-`..` element (or be dropped at the root),
push everything else.  The stack is kept reversed (top first). -/
def cleanSegsStep (rooted : Bool) (stack : List (List Char)) (seg : List Char) :
    List (List Char) :=
  if seg = [] ∨ seg = ['.'] then stack
  else if seg = ['.', '.'] then
    match stack with
    | [] => if rooted then [] else [['.', '.']]
    | top :: rest => if top = ['.', '.'] then seg :: stack else rest
  else seg :: stack

/-- Model of Go `path/filepath.Clean` on Unix paths: the standard lexical
algorithm (empty path becomes `.`, `.` and empty elements are dropped,
`..` cancels a preceding element and is dropped at the root, a rooted
result keeps its leading `/`). -/
def cleanPath (p : List Char) : List Char :=
  if p = [] then ['.']
  else
    let rooted := strStartsWith p ['/']
    let stack := (splitOnSlash p).foldl (cleanSegsStep rooted) []
    let body := joinWithSlash stack.reverse
    if rooted then '/' :: body
    else if body = [] then ['.'] else body

/-- Model of Go `filepath.IsAbs` on Unix: the path starts with `/`. -/
def pathIsAbs (p : List Char) : Bool := strStartsWith p ['/']

/-- Model of Go `filepath.Join` for two non-empty elements:
`Clean(a + "/" + b)`. -/
def joinPath (a b : List Char) : List Char := cleanPath (a ++ '/' :: b)

/-- Modelled from the spec: `isSameOrChildPath` is called by
`extractZipSecure` but its definition is not among the provided sources;
per the traversal-safety intent (spec §8 scenario 5) it accepts `dest`
exactly when it equals `target` or lies inside it (target followed by a
path separator). -/
def isSameOrChildPath (dest target : List Char) : Bool :=
  dest == target || strStartsWith dest (target ++ ['/'])

/-- One zip archive entry as `extractZipSecure` inspects it: its name, the
directory and symlink mode bits, the declared (`UncompressedSize64`) and
actual sizes. -/
structure ZipEntry where
  name : List Char
  isDir : Bool
  isSymlink : Bool
  declaredSize : Nat
  actualSize : Nat
deriving DecidableEq, Repr

/-- `maxSkillZipEntryBytes = 8 << 20`. -/
def maxSkillZipEntryBytes : Nat := 8388608

/-- Go `%q` on the ASCII printable fragment: surround with quotes. -/
def goQuote (s : List Char) : List Char := '"' :: (s ++ ['"'])

/-- The per-entry loop of `extractZipSecure` (lines 410–463) over a cleaned
target directory: returns the written file paths, or the first error. -/
def extractEntries (targetClean : List Char) :
    List ZipEntry → Except (List Char) (List (List Char))
  | [] => .ok []
  | e :: rest =>
    let name := cleanPath e.name
    if name = ['.'] then extractEntries targetClean rest
    else if strStartsWith name ['.', '.'] || pathIsAbs name then
      .error ("zip entry has unsafe path: ".toList ++ e.name)
    else
      let dest := joinPath targetClean name
      if !isSameOrChildPath dest targetClean then
        .error ("zip entry escapes target directory: ".toList ++ e.name)
      else if e.isSymlink then
        .error ("zip entry ".toList ++ goQuote e.name ++
          " is a symlink and is not allowed".toList)
      else if e.isDir then extractEntries targetClean rest
      else if e.declaredSize > maxSkillZipEntryBytes then
        .error ("zip entry ".toList ++ goQuote e.name ++ " is too large".toList)
      else if e.actualSize > maxSkillZipEntryBytes then
        .error ("zip entry ".toList ++ goQuote e.name ++
          " exceeds maximum size".toList)
      else
        match extractEntries targetClean rest with
        | .ok writes => .ok (joinPath targetClean name :: writes)
        | .error err => .error err

/-- `extractZipSecure` (lines 402–465): clean the target, then process the
entries in order. -/
def extractZipSecure (targetDir : List Char) (entries : List ZipEntry) :
    Except (List Char) (List (List Char)) :=
  extractEntries (cleanPath targetDir) entries

/-- The extraction phase of `ClawHubRegistry.Install` (lines 244–296) with
its deferred cleanup: on any extraction error the target directory is
removed (`cleanup` is still true), so the second component — "the target
directory still exists when `Install` returns" — is `false` exactly on
error at this phase. -/
def clawHubInstallExtractPhase (targetDir : List Char) (entries : List ZipEntry) :
    Except (List Char) (List (List Char)) × Bool :=
  match extractZipSecure targetDir entries with
  | .error e => (.error e, false)
  | .ok ws => (.ok ws, true)

/-- Does one entry pass every check of the extraction loop (so that the
loop continues past it)? -/
def entryExtractsOk (targetClean : List Char) (e : ZipEntry) : Bool :=
  let name := cleanPath e.name
  name = ['.'] ||
    (!(strStartsWith name ['.', '.'] || pathIsAbs name) &&
     isSameOrChildPath (joinPath targetClean name) targetClean &&
     !e.isSymlink &&
     (e.isDir ||
       (decide (e.declaredSize ≤ maxSkillZipEntryBytes) &&
        decide (e.actualSize ≤ maxSkillZipEntryBytes))))

theorem extractEntries_error_through (targetClean : List Char)
    (pre : List ZipEntry) (hpre : ∀ e ∈ pre, entryExtractsOk targetClean e = true)
    (rest : List ZipEntry) (err : List Char)
    (hrest : extractEntries targetClean rest = .error err) :
    extractEntries targetClean (pre ++ rest) = .error err := by
  induction pre with
  | nil => simpa using hrest
  | cons e pre ih =>
    have he : entryExtractsOk targetClean e = true := hpre e (List.mem_cons_self e pre)
    have hrec : extractEntries targetClean (pre ++ rest) = .error err :=
      ih (fun x hx => hpre x (List.mem_cons_of_mem e hx))
    unfold entryExtractsOk at he
    simp only [List.cons_append]
    unfold extractEntries
    dsimp only
    by_cases h1 : cleanPath e.name = ['.']
    · rw [if_pos h1]
      exact hrec
    · rw [if_neg h1]
      simp only [h1, Bool.false_or] at he
      have h2 : (strStartsWith (cleanPath e.name) ['.', '.'] ||
          pathIsAbs (cleanPath e.name)) = false := by
        cases hq : (strStartsWith (cleanPath e.name) ['.', '.'] ||
            pathIsAbs (cleanPath e.name)) <;> simp [hq] at he ⊢
      rw [if_neg (by simp [h2])]
      have h3 : isSameOrChildPath (joinPath targetClean (cleanPath e.name))
          targetClean = true := by
        simp only [h2, Bool.not_false, Bool.true_and] at he
        cases hq : isSameOrChildPath (joinPath targetClean (cleanPath e.name))
            targetClean <;> simp [hq] at he ⊢
      rw [if_neg (by simp [h3])]
      have h4 : e.isSymlink = false := by
        simp only [h2, h3, Bool.not_false, Bool.true_and] at he
        cases hq : e.isSymlink <;> simp [hq] at he ⊢
      rw [if_neg (by simp [h4])]
      by_cases h5 : e.isDir = true
      · rw [if_pos h5]
        exact hrec
      · rw [if_neg h5]
        simp only [h2, h3, h4, Bool.not_false, Bool.true_and,
          Bool.false_or, (by simpa using h5 : e.isDir = false)] at he
        have h6 : e.declaredSize ≤ maxSkillZipEntryBytes ∧
            e.actualSize ≤ maxSkillZipEntryBytes := by
          constructor <;> [exact of_decide_eq_true (by simp_all);
            exact of_decide_eq_true (by simp_all)]
        rw [if_neg (by omega), if_neg (by omega), hrec]

/-- **C9.**  Installing from an archive that contains the path-traversal
entry `../evil.txt` (after any entries that extract cleanly) fails with an
error containing `unsafe path`, and the deferred cleanup removes the target
install directory — no partially-extracted skill directory survives. -/
theorem skill_install_traversal_safe (targetDir : List Char)
    (pre post : List ZipEntry) (d sym : Bool) (ds as : Nat)
    (hpre : ∀ e ∈ pre, entryExtractsOk (cleanPath targetDir) e = true) :
    (clawHubInstallExtractPhase targetDir
        (pre ++ ZipEntry.mk ("../evil.txt".toList) d sym ds as :: post)).1
      = .error ("zip entry has unsafe path: ../evil.txt".toList) ∧
    strContainsSub ("zip entry has unsafe path: ../evil.txt".toList)
      ("unsafe path".toList) = true ∧
    (clawHubInstallExtractPhase targetDir
        (pre ++ ZipEntry.mk ("../evil.txt".toList) d sym ds as :: post)).2
      = false := by
  have hevil : extractEntries (cleanPath targetDir)
      (ZipEntry.mk ("../evil.txt".toList) d sym ds as :: post)
      = .error ("zip entry has unsafe path: ../evil.txt".toList) := by
    unfold extractEntries
    dsimp only
    rw [if_neg (by decide), if_pos (by decide)]
    exact congrArg Except.error (by decide)
  have hall : extractZipSecure targetDir
      (pre ++ ZipEntry.mk ("../evil.txt".toList) d sym ds as :: post)
      = .error ("zip entry has unsafe path: ../evil.txt".toList) := by
    unfold extractZipSecure
    exact extractEntries_error_through (cleanPath targetDir) pre hpre _ _ hevil
  refine ⟨?_, by decide, ?_⟩ <;>
    simp only [clawHubInstallExtractPhase, hall]

/-- Witness for `skill_install_traversal_safe`: the literal scenario — an
archive holding exactly `../evil.txt` targeted at `workspace/skills/s`. -/
theorem skill_install_traversal_safe_witness :
    (clawHubInstallExtractPhase ("workspace/skills/s".toList)
        ([] ++ ZipEntry.mk ("../evil.txt".toList) false false 0 0 :: [])).1
      = .error ("zip entry has unsafe path: ../evil.txt".toList) ∧
    (clawHubInstallExtractPhase ("workspace/skills/s".toList)
        ([] ++ ZipEntry.mk ("../evil.txt".toList) false false 0 0 :: [])).2
      = false := by
  have h := skill_install_traversal_safe ("workspace/skills/s".toList) [] []
    false false 0 0 (by intro e he; cases he)
  exact ⟨h.1, h.2.2⟩

/-! ## SHA-256 and HMAC (models of Go `crypto/sha256`, `crypto/hmac`)

`verifyWhatsAppSignature` (whatsapp adapter lines 615–639) calls the Go
standard library; the primitives are modelled here bit-for-bit (FIPS 180-4)
on byte lists, 32-bit words as `Nat` with explicit `% 2^32`.  The model
reproduces the official test vectors (`sha256("abc")`,
`hmac-sha256("key", "The quick brown fox…")`). -/

/-- The 64 SHA-256 round constants (decimal). -/
def shaK : List Nat :=
  [1116352408, 1899447441, 3049323471, 3921009573, 961987163,
   1508970993, 2453635748, 2870763221, 3624381080, 310598401,
   607225278, 1426881987, 1925078388, 2162078206, 2614888103,
   3248222580, 3835390401, 4022224774, 264347078, 604807628,
   770255983, 1249150122, 1555081692, 1996064986, 2554220882,
   2821834349, 2952996808, 3210313671, 3336571891, 3584528711,
   113926993, 338241895, 666307205, 773529912, 1294757372,
   1396182291, 1695183700, 1986661051, 2177026350, 2456956037,
   2730485921, 2820302411, 3259730800, 3345764771, 3516065817,
   3600352804, 4094571909, 275423344, 430227734, 506948616,
   659060556, 883997877, 958139571, 1322822218, 1537002063,
   1747873779, 1955562222, 2024104815, 2227730452, 2361852424,
   2428436474, 2756734187, 3204031479, 3329325298]

/-- The SHA-256 initial hash value (decimal). -/
def shaH0 : List Nat :=
  [1779033703, 3144134277, 1013904242, 2773480762, 1359893119,
   2600822924, 528734635, 1541459225]

/-- 32-bit right rotation. -/
def rotr32 (n x : Nat) : Nat := (x / 2 ^ n + x % 2 ^ n * 2 ^ (32 - n)) % 4294967296

/-- 32-bit right shift. -/
def shr32 (n x : Nat) : Nat := x / 2 ^ n

/-- 32-bit bitwise complement. -/
def not32 (x : Nat) : Nat := x ^^^ 4294967295

def bigSigma0 (a : Nat) : Nat := rotr32 2 a ^^^ rotr32 13 a ^^^ rotr32 22 a

def bigSigma1 (e : Nat) : Nat := rotr32 6 e ^^^ rotr32 11 e ^^^ rotr32 25 e

def smallSigma0 (x : Nat) : Nat := rotr32 7 x ^^^ rotr32 18 x ^^^ shr32 3 x

def smallSigma1 (x : Nat) : Nat := rotr32 17 x ^^^ rotr32 19 x ^^^ shr32 10 x

/-- Big-endian 32-bit words from bytes. -/
def toWords : List Nat → List Nat
  | b0 :: b1 :: b2 :: b3 :: rest =>
      (b0 * 2 ^ 24 + b1 * 2 ^ 16 + b2 * 2 ^ 8 + b3) :: toWords rest
  | _ => []

/-- Big-endian 8-byte encoding of the bit length. -/
def be64Bytes (n : Nat) : List Nat :=
  [n / 2 ^ 56 % 256, n / 2 ^ 48 % 256, n / 2 ^ 40 % 256, n / 2 ^ 32 % 256,
   n / 2 ^ 24 % 256, n / 2 ^ 16 % 256, n / 2 ^ 8 % 256, n % 256]

/-- Big-endian bytes of one 32-bit word. -/
def be32Bytes (w : Nat) : List Nat :=
  [w / 2 ^ 24 % 256, w / 2 ^ 16 % 256, w / 2 ^ 8 % 256, w % 256]

/-- SHA-256 message padding: `0x80`, zeros to 56 mod 64, 64-bit length. -/
def sha256Pad (m : List Nat) : List Nat :=
  m ++ 0x80 :: List.replicate ((120 - (m.length + 1) % 64) % 64) 0 ++
    be64Bytes (8 * m.length)

/-- Split into 64-byte blocks. -/
def chunks64 : List Nat → List (List Nat)
  | [] => []
  | x :: xs => (x :: xs).take 64 :: chunks64 ((x :: xs).drop 64)
termination_by l => l.length
decreasing_by simp; omega

/-- Append the next word of the message schedule. -/
def extendStep (w : List Nat) : List Nat :=
  w ++ [(w.getD (w.length - 16) 0 + smallSigma0 (w.getD (w.length - 15) 0) +
         w.getD (w.length - 7) 0 + smallSigma1 (w.getD (w.length - 2) 0)) % 4294967296]

def extendMany : Nat → List Nat → List Nat
  | 0, w => w
  | n + 1, w => extendMany n (extendStep w)

/-- The 64-word message schedule of one block. -/
def msgSchedule (block : List Nat) : List Nat := extendMany 48 (toWords block)

/-- One SHA-256 compression round on the state `[a,b,c,d,e,f,g,h]`. -/
def compressRound (k w : Nat) (st : List Nat) : List Nat :=
  match st with
  | [a, b, c, d, e, f, g, h] =>
    let t1 := (h + bigSigma1 e + ((e &&& f) ^^^ (not32 e &&& g)) + k + w) % 4294967296
    let t2 := (bigSigma0 a + ((a &&& b) ^^^ (a &&& c) ^^^ (b &&& c))) % 4294967296
    [(t1 + t2) % 4294967296, a, b, c, (d + t1) % 4294967296, e, f, g]
  | st => st

def compressRounds : List Nat → List Nat → List Nat → List Nat
  | [], _, st => st
  | _ :: _, [], st => st
  | k :: ks, w :: ws, st => compressRounds ks ws (compressRound k w st)

/-- Process one 64-byte block. -/
def compressBlock (h : List Nat) (block : List Nat) : List Nat :=
  List.zipWith (fun a b => (a + b) % 4294967296) h
    (compressRounds shaK (msgSchedule block) h)

/-- Serialize hash words to bytes. -/
def bytesOfWords : List Nat → List Nat
  | [] => []
  | w :: ws => be32Bytes w ++ bytesOfWords ws

/-- SHA-256 of a byte list (matches the FIPS 180-4 test vectors). -/
def sha256 (m : List Nat) : List Nat :=
  bytesOfWords ((chunks64 (sha256Pad m)).foldl compressBlock shaH0)

/-- HMAC-SHA256 (Go `crypto/hmac` with block size 64). -/
def hmacSHA256 (key msg : List Nat) : List Nat :=
  let k0 := if 64 < key.length then sha256 key else key
  let kp := k0 ++ List.replicate (64 - k0.length) 0
  sha256 ((kp.map (fun b => b ^^^ 0x5c)) ++
    sha256 ((kp.map (fun b => b ^^^ 0x36)) ++ msg))

/-- The table Go's `encoding/hex` encodes with. -/
def hexTable : List Char := "0123456789abcdef".toList

/-- Model of `hex.EncodeToString`: two lowercase hex digits per byte. -/
def hexEncodeBytes : List Nat → List Char
  | [] => []
  | b :: bs => hexTable.getD (b / 16) '0' :: hexTable.getD (b % 16) '0' ::
      hexEncodeBytes bs

/-- Value of one hex digit as `hex.DecodeString` accepts it: digits and
letters of either case. -/
def hexVal (c : Char) : Option Nat :=
  if '0' ≤ c ∧ c ≤ '9' then some (c.toNat - 48)
  else if 'a' ≤ c ∧ c ≤ 'f' then some (c.toNat - 87)
  else if 'A' ≤ c ∧ c ≤ 'F' then some (c.toNat - 55)
  else none

/-- Model of `hex.DecodeString`: even length, case-insensitive digits. -/
def hexDecodeChars : List Char → Option (List Nat)
  | [] => some []
  | [_] => none
  | a :: b :: rest =>
    match hexVal a, hexVal b, hexDecodeChars rest with
    | some x, some y, some tl => some ((x * 16 + y) :: tl)
    | _, _, _ => none

/-- Bytes of a Go string (ASCII fragment). -/
def strBytes (s : List Char) : List Nat := s.map Char.toNat

/-- `verifyWhatsAppSignature` (whatsapp adapter lines 615–639): empty
trimmed secret accepts everything; otherwise trim the header, check the
`sha256=` magic case-insensitively, hex-decode the rest, compare the
digest byte-for-byte (the constant-time comparison decides equality). -/
def verifyWhatsAppSignature (appSecret : List Char) (body : List Nat)
    (header : List Char) : Bool :=
  if trimSpace appSecret = [] then true
  else if !strStartsWith (strToLower (trimSpace header)) ("sha256=".toList) then
    false
  else
    match hexDecodeChars (trimSpace ((trimSpace header).drop 7)) with
    | none => false
    | some given =>
      if given.length ≠ (hmacSHA256 (strBytes (trimSpace appSecret)) body).length
      then false
      else given == hmacSHA256 (strBytes (trimSpace appSecret)) body

theorem be32Bytes_lt (w : Nat) : ∀ b ∈ be32Bytes w, b < 256 := by
  intro b hb
  simp [be32Bytes] at hb
  rcases hb with rfl | rfl | rfl | rfl <;> omega

theorem bytesOfWords_lt (ws : List Nat) : ∀ b ∈ bytesOfWords ws, b < 256 := by
  induction ws with
  | nil => intro b hb; cases hb
  | cons w ws ih =>
    intro b hb
    rcases List.mem_append.mp hb with h | h
    · exact be32Bytes_lt w b h
    · exact ih b h

theorem sha256_lt (m : List Nat) : ∀ b ∈ sha256 m, b < 256 :=
  bytesOfWords_lt _

theorem hmacSHA256_lt (key msg : List Nat) : ∀ b ∈ hmacSHA256 key msg, b < 256 :=
  sha256_lt _

theorem hexTable_getD_mem (i : Nat) : hexTable.getD i '0' ∈ hexTable := by
  by_cases h : i < 16
  · interval_cases i <;> decide
  · rw [List.getD_eq_default]
    · decide
    · simp [hexTable]; omega

theorem hexTable_no_space : ∀ c ∈ hexTable, isSpaceChar c = false := by decide

theorem hexTable_lower_inv : ∀ c ∈ hexTable, toLowerChar c = c := by decide

theorem hexVal_hexTable (n : Nat) (h : n < 16) :
    hexVal (hexTable.getD n '0') = some n := by
  interval_cases n <;> decide

theorem hexEncodeBytes_mem (bs : List Nat) :
    ∀ c ∈ hexEncodeBytes bs, c ∈ hexTable := by
  induction bs with
  | nil => intro c hc; cases hc
  | cons b bs ih =>
    intro c hc
    rcases hc with _ | ⟨_, hc⟩
    · exact hexTable_getD_mem _
    · rcases hc with _ | ⟨_, hc⟩
      · exact hexTable_getD_mem _
      · exact ih c hc

theorem hexDecode_hexEncode (bs : List Nat) (h : ∀ b ∈ bs, b < 256) :
    hexDecodeChars (hexEncodeBytes bs) = some bs := by
  induction bs with
  | nil => rfl
  | cons b bs ih =>
    have hb : b < 256 := h b (List.mem_cons_self b bs)
    have h1 : b / 16 < 16 := by omega
    have h2 : b % 16 < 16 := by omega
    show hexDecodeChars (hexTable.getD (b / 16) '0' :: hexTable.getD (b % 16) '0' ::
      hexEncodeBytes bs) = some (b :: bs)
    unfold hexDecodeChars
    rw [hexVal_hexTable _ h1, hexVal_hexTable _ h2,
      ih (fun x hx => h x (List.mem_cons_of_mem b hx))]
    show some ((b / 16 * 16 + b % 16) :: bs) = some (b :: bs)
    have : b / 16 * 16 + b % 16 = b := by omega
    rw [this]

theorem dropWhile_no_space (s : List Char) (h : ∀ c ∈ s, isSpaceChar c = false) :
    s.dropWhile isSpaceChar = s := by
  cases s with
  | nil => rfl
  | cons a t => simp [List.dropWhile_cons, h a (List.mem_cons_self a t)]

theorem trimSpace_no_space (s : List Char) (h : ∀ c ∈ s, isSpaceChar c = false) :
    trimSpace s = s := by
  unfold trimSpace
  rw [dropWhile_no_space s h, dropWhile_no_space _ (by
    intro c hc
    exact h c (List.mem_reverse.mp hc)), List.reverse_reverse]

theorem strToLower_eq_self (s : List Char) (h : ∀ c ∈ s, toLowerChar c = c) :
    List.map toLowerChar s = s := by
  induction s with
  | nil => rfl
  | cons a t ih =>
    rw [List.map_cons, h a (List.mem_cons_self a t),
      ih (fun c hc => h c (List.mem_cons_of_mem a hc))]

theorem strStartsWith_append_self (p q : List Char) :
    strStartsWith (p ++ q) p = true := by
  induction p with
  | nil => cases q <;> rfl
  | cons a p ih => simp [strStartsWith, ih]

theorem verify_accepts_encoded (appSecret : List Char) (body : List Nat)
    (pre7 : List Char) (hs : trimSpace appSecret ≠ [])
    (hlen : pre7.length = 7)
    (hlow : strToLower pre7 = "sha256=".toList)
    (hnsp : ∀ c ∈ pre7, isSpaceChar c = false) :
    verifyWhatsAppSignature appSecret body
      (pre7 ++ hexEncodeBytes (hmacSHA256 (strBytes (trimSpace appSecret)) body))
      = true := by
  have hhexmem := hexEncodeBytes_mem (hmacSHA256 (strBytes (trimSpace appSecret)) body)
  have hnsp2 : ∀ c ∈ pre7 ++
      hexEncodeBytes (hmacSHA256 (strBytes (trimSpace appSecret)) body),
      isSpaceChar c = false := by
    intro c hc
    rcases List.mem_append.mp hc with h | h
    · exact hnsp c h
    · exact hexTable_no_space c (hhexmem c h)
  have htrim := trimSpace_no_space _ hnsp2
  have hlower : strToLower (pre7 ++
      hexEncodeBytes (hmacSHA256 (strBytes (trimSpace appSecret)) body)) =
      "sha256=".toList ++
        hexEncodeBytes (hmacSHA256 (strBytes (trimSpace appSecret)) body) := by
    unfold strToLower
    rw [List.map_append]
    unfold strToLower at hlow
    rw [hlow, strToLower_eq_self _ (fun c hc => hexTable_lower_inv c (hhexmem c hc))]
  have hdrop : (pre7 ++
      hexEncodeBytes (hmacSHA256 (strBytes (trimSpace appSecret)) body)).drop 7 =
      hexEncodeBytes (hmacSHA256 (strBytes (trimSpace appSecret)) body) := by
    rw [← hlen, List.drop_left]
  have hdec := hexDecode_hexEncode _ (hmacSHA256_lt (strBytes (trimSpace appSecret)) body)
  unfold verifyWhatsAppSignature
  rw [if_neg hs, htrim, hlower, strStartsWith_append_self,
    if_neg (by simp), hdrop,
    trimSpace_no_space _ (fun c hc => hexTable_no_space c (hhexmem c hc)), hdec]
  simp

/-- **C8 (counterexample).**  The claim says any mutation of the signature
makes verification return false.  But the hex digest is decoded
case-insensitively and the `sha256=` magic is compared after lower-casing:
mutating the signature header's first byte from `s` to `S` yields a
different header that still verifies. -/
theorem whatsapp_signature_mutation_counterexample :
    ("Sha256=".toList ++
        hexEncodeBytes (hmacSHA256 (strBytes ("topsecret".toList))
          (strBytes ("{}".toList)))) ≠
      ("sha256=".toList ++
        hexEncodeBytes (hmacSHA256 (strBytes ("topsecret".toList))
          (strBytes ("{}".toList)))) ∧
    verifyWhatsAppSignature ("topsecret".toList) (strBytes ("{}".toList))
      ("Sha256=".toList ++
        hexEncodeBytes (hmacSHA256 (strBytes ("topsecret".toList))
          (strBytes ("{}".toList)))) = true := by
  constructor
  · intro h
    have h1 : ("Sha256=".toList ++
        hexEncodeBytes (hmacSHA256 (strBytes ("topsecret".toList))
          (strBytes ("{}".toList)))).head? = some 'S' := rfl
    rw [h] at h1
    exact absurd h1 (by decide)
  · have htrim : trimSpace ("topsecret".toList) = "topsecret".toList := by decide
    have := verify_accepts_encoded ("topsecret".toList) (strBytes ("{}".toList))
      ("Sha256=".toList) (by decide) (by decide) (by decide) (by decide)
    rw [htrim] at this
    exact this

/-- **C8 (amended).**  (1) Round trip: for a secret that is non-empty after
trimming, the canonical header `sha256=` + lowercase hex of
HMAC-SHA256(trimmed secret, body) verifies; (2) an empty trimmed secret
accepts every body and header; (3) soundness: for a non-empty trimmed
secret a header only verifies when its hex part decodes exactly to
HMAC-SHA256(trimmed secret, body) — so any mutation of body or signature
that changes the decoded digest is rejected, while digest-preserving
mutations of the signature (hex letter case, the `sha256=` magic's case,
surrounding whitespace) still verify, as the counterexample shows. -/
theorem whatsapp_signature_verification (appSecret header : List Char)
    (body : List Nat) :
    (trimSpace appSecret ≠ [] →
      verifyWhatsAppSignature appSecret body
        ("sha256=".toList ++
          hexEncodeBytes (hmacSHA256 (strBytes (trimSpace appSecret)) body))
        = true) ∧
    (trimSpace appSecret = [] →
      verifyWhatsAppSignature appSecret body header = true) ∧
    (trimSpace appSecret ≠ [] →
      verifyWhatsAppSignature appSecret body header = true →
      hexDecodeChars (trimSpace ((trimSpace header).drop 7)) =
        some (hmacSHA256 (strBytes (trimSpace appSecret)) body)) := by
  refine ⟨?_, ?_, ?_⟩
  · intro hs
    exact verify_accepts_encoded appSecret body ("sha256=".toList) hs
      (by decide) (by decide) (by decide)
  · intro hs
    unfold verifyWhatsAppSignature
    rw [if_pos hs]
  · intro hs hv
    unfold verifyWhatsAppSignature at hv
    rw [if_neg hs] at hv
    by_cases hp : strStartsWith (strToLower (trimSpace header)) ("sha256=".toList)
      = true
    · rw [hp] at hv
      rw [if_neg (by simp)] at hv
      revert hv
      cases hd : hexDecodeChars (trimSpace ((trimSpace header).drop 7)) with
      | none => intro hv; cases hv
      | some given =>
        intro hv
        dsimp only at hv
        by_cases hl : given.length =
            (hmacSHA256 (strBytes (trimSpace appSecret)) body).length
        · rw [if_neg (by simp [hl])] at hv
          have : given = hmacSHA256 (strBytes (trimSpace appSecret)) body := by
            simpa using hv
          rw [this]
        · rw [if_pos (by simp [hl])] at hv
          cases hv
    · simp only [Bool.not_eq_true] at hp
      rw [hp] at hv
      rw [if_pos (by decide)] at hv
      cases hv

/-- Witness for `whatsapp_signature_verification`: the round trip accepted
for a concrete secret, and a blank secret accepting an arbitrary header. -/
theorem whatsapp_signature_verification_witness :
    verifyWhatsAppSignature ("topsecret".toList) (strBytes ("{}".toList))
      ("sha256=".toList ++
        hexEncodeBytes (hmacSHA256 (strBytes (trimSpace ("topsecret".toList)))
          (strBytes ("{}".toList)))) = true ∧
    verifyWhatsAppSignature ("  ".toList) (strBytes ("{}".toList))
      ("sha256=deadbeef".toList) = true := by
  constructor
  · exact (whatsapp_signature_verification ("topsecret".toList) [] _).1 (by decide)
  · exact (whatsapp_signature_verification ("  ".toList)
      ("sha256=deadbeef".toList) _).2.1 (by decide)

end Clawlet
